import Mathlib

/-!
# Verification of the UniV2 / HyperLiquid hedge strategy

Shallow embedding of the decision engine `UniV2HyperLiquidHedge.predict`
(`src/univ2_hl_hedge.py`) and the observation builder `build_observations`
(`src/univ2_hl_backtest.py`).  Python floats are modelled as exact
rationals (`ℚ`); a float that may be `None` or `NaN` is modelled by the
inductive `PriceVal`.  The fatal `ValueError` raised on insufficient
margin is modelled by `Except MarginError`.
-/

namespace UniV2HL

/-- A Python float-or-None value as read from `lp_global_state.price`:
either missing (`None`), `NaN`, or an actual numeric value. -/
inductive PriceVal where
  | missing : PriceVal
  | nan : PriceVal
  | val : ℚ → PriceVal
deriving DecidableEq

/-- The price-validity test repeated at lines 55 and 89 of the source:
`price is None or price <= 0 or math.isnan(price)`. -/
def PriceVal.invalid : PriceVal → Bool
  | .missing => true
  | .nan => true
  | .val q => decide (q ≤ 0)

/-- Strategy parameters `UniV2HLParams` (source lines 13–17). -/
structure UniV2HLParams where
  INITIAL_NOTIONAL : ℚ
  HL_LEVERAGE : ℚ
  REBALANCE_THRESHOLD_PCT : ℚ := 1 / 10
deriving DecidableEq

/-- The part of `UniswapV2LPGlobalState` read by the engine: only `price`
(source line 52). -/
structure LPGlobalView where
  price : PriceVal
deriving DecidableEq

/-- The part of `UniswapV2LPInternalState` read by the engine: only
`token1_amount` (source line 93). -/
structure LPInternalView where
  token1_amount : ℚ
deriving DecidableEq

/-- The part of the `HyperliquidEntity` read by the engine: the available
margin `balance` and the signed position `size`. -/
structure HedgeView where
  balance : ℚ
  size : ℚ
deriving DecidableEq

/-- Engine-owned internal state: the `_did_boot` flag (source line 20) and
the recorded boot price `_price_on_boot` (source lines 37, 72). -/
structure EngineState where
  did_boot : Bool
  price_on_boot : Option ℚ
deriving DecidableEq

/-- State at construction: `_did_boot = False`, `_price_on_boot = None`. -/
def initEngineState : EngineState := ⟨false, none⟩

/-- Target entity of an emitted instruction. -/
inductive EntityName where
  | LP : EntityName
  | HEDGE : EntityName
deriving DecidableEq, BEq

/-- Operation name of an emitted instruction. -/
inductive OpName where
  | deposit : OpName
  | open_position : OpName
deriving DecidableEq, BEq

/-- An `Action(op, {...: amount})`: a named operation with one numeric
parameter (`amount_in_notional` or `amount_in_product`). -/
structure Action where
  op : OpName
  amount : ℚ
deriving DecidableEq

/-- An `ActionToTake(entity_name, action)` pair. -/
structure ActionToTake where
  entity : EntityName
  action : Action
deriving DecidableEq

/-- The data carried by the `ValueError` raised at source line 119:
`Needed: {margin_needed_for_adjustment}, Available: {available_margin}`. -/
structure MarginError where
  needed : ℚ
  available : ℚ
deriving DecidableEq

/-- Equality of `Except` results is decidable whenever both component
types have decidable equality (needed to evaluate the engine on concrete
inputs). -/
instance {ε α : Type} [DecidableEq ε] [DecidableEq α] : DecidableEq (Except ε α) :=
  fun x y =>
    match x, y with
    | .error a, .error b => decidable_of_iff (a = b) (by simp)
    | .ok a, .ok b => decidable_of_iff (a = b) (by simp)
    | .error _, .ok _ => .isFalse (by simp)
    | .ok _, .error _ => .isFalse (by simp)

/-- Python's built-in `abs` on a float: `-x` if `x < 0`, else `x`
(kernel-reducible, unlike the lattice-derived `|·|`). -/
def pyabs (x : ℚ) : ℚ := if x < 0 then -x else x

/-- The function `pyabs` agrees with the mathematical absolute value. -/
theorem pyabs_eq_abs (x : ℚ) : pyabs x = |x| := by
  unfold pyabs
  rcases lt_or_le x 0 with h | h
  · rw [if_pos h, abs_of_neg h]
  · rw [if_neg (not_lt.mpr h), abs_of_nonneg h]

/-- Source line 61: `initial_notional / (1 + 1 / (2 * leverage))`. -/
def initial_lp_deposit_notional (p : UniV2HLParams) : ℚ :=
  p.INITIAL_NOTIONAL / (1 + 1 / (2 * p.HL_LEVERAGE))

/-- Source line 62: `initial_lp_deposit_notional / 2`. -/
def initial_eth_value_in_lp (p : UniV2HLParams) : ℚ :=
  initial_lp_deposit_notional p / 2

/-- Source line 63: `initial_eth_value_in_lp / leverage`. -/
def margin_for_initial_short (p : UniV2HLParams) : ℚ :=
  initial_eth_value_in_lp p / p.HL_LEVERAGE

/-- Source line 64: `initial_eth_value_in_lp / current_eth_price`. -/
def initial_eth_amount_to_short (p : UniV2HLParams) (current_eth_price : ℚ) : ℚ :=
  initial_eth_value_in_lp p / current_eth_price

/-- The four boot instructions, in the order of source lines 66–71. -/
def bootActions (p : UniV2HLParams) (current_eth_price : ℚ) : List ActionToTake :=
  [ ⟨.LP, ⟨.deposit, initial_lp_deposit_notional p⟩⟩,
    ⟨.LP, ⟨.open_position, initial_lp_deposit_notional p⟩⟩,
    ⟨.HEDGE, ⟨.deposit, margin_for_initial_short p⟩⟩,
    ⟨.HEDGE, ⟨.open_position, -(initial_eth_amount_to_short p current_eth_price)⟩⟩ ]

/-- The rebalance trigger, source line 102:
`abs(diff_in_eth_amount) / lp_eth_amount > REBALANCE_THRESHOLD_PCT`. -/
def rebalance_triggered (threshold lp_eth_amount current_short_size_abs : ℚ) : Bool :=
  decide (pyabs (lp_eth_amount - current_short_size_abs) / lp_eth_amount > threshold)

/-- The liquidation sentinel condition of source line 77:
`hedge_entity.balance == 0 and lp_internal_state.token1_amount > 0`.
In the source it only produces a debug log; the `raise` is commented out. -/
def liquidation_sentinel (i : LPInternalView) (hedge : HedgeView) : Bool :=
  decide (hedge.balance = 0 ∧ i.token1_amount > 0)

/-- The post-boot rebalance logic, source lines 88–130 (from the price
check at line 89 to the final `return actions`). -/
def rebalanceStep (p : UniV2HLParams) (g : LPGlobalView) (i : LPInternalView)
    (hedge : HedgeView) : Except MarginError (List ActionToTake) :=
  match g.price with
  | .missing => .ok []
  | .nan => .ok []
  | .val current_eth_price =>
    if current_eth_price ≤ 0 then .ok []
    else
      let lp_eth_amount := i.token1_amount
      let current_short_size_abs := pyabs hedge.size
      if lp_eth_amount ≤ 1 / 1000000000 then .ok []
      else if rebalance_triggered p.REBALANCE_THRESHOLD_PCT lp_eth_amount
          current_short_size_abs then
        let desired_total_short_product := -lp_eth_amount
        let amount_to_adjust_product := desired_total_short_product - hedge.size
        if pyabs (amount_to_adjust_product * current_eth_price) < 1 / 100 then .ok []
        else if amount_to_adjust_product < 0 then
          let notional_value_of_adjustment := pyabs amount_to_adjust_product * current_eth_price
          let margin_needed_for_adjustment := notional_value_of_adjustment / p.HL_LEVERAGE
          let available_margin := hedge.balance
          if available_margin < margin_needed_for_adjustment then
            .error ⟨margin_needed_for_adjustment, available_margin⟩
          else
            .ok [⟨.HEDGE, ⟨.open_position, amount_to_adjust_product⟩⟩]
        else if amount_to_adjust_product > 0 then
          .ok [⟨.HEDGE, ⟨.open_position, amount_to_adjust_product⟩⟩]
        else .ok []
      else .ok []

/-- The engine step `UniV2HyperLiquidHedge.predict` (source lines 39–130).  Entity states
are read-only inputs; the returned `EngineState` is the engine state after
the call (the source mutates `self._did_boot` / `self._price_on_boot`). -/
def predict (p : UniV2HLParams) (st : EngineState)
    (lp_global_state : Option LPGlobalView) (lp_internal_state : Option LPInternalView)
    (hedge : HedgeView) : Except MarginError (EngineState × List ActionToTake) :=
  match lp_global_state, lp_internal_state with
  | some g, some i =>
    if st.did_boot = false then
      match g.price with
      | .val current_eth_price =>
        if current_eth_price ≤ 0 then .ok (st, [])
        else .ok (⟨true, some current_eth_price⟩, bootActions p current_eth_price)
      | _ => .ok (st, [])
    else
      -- Source line 77: the sentinel is computed but only logged (the
      -- exception at lines 83–86 is commented out), so it has no effect.
      let _sentinel := liquidation_sentinel i hedge
      (rebalanceStep p g i hedge).map (fun as => (st, as))
  | _, _ => .ok (st, [])

/-- One snapshot's worth of inputs to a `predict` call: the externally
owned entity states as the engine reads them. -/
structure CallInput where
  lp_global_state : Option LPGlobalView
  lp_internal_state : Option LPInternalView
  hedge : HedgeView
deriving DecidableEq

/-- Run `predict` on a bundled `CallInput`. -/
def predictCall (p : UniV2HLParams) (st : EngineState) (c : CallInput) :
    Except MarginError (EngineState × List ActionToTake) :=
  predict p st c.lp_global_state c.lp_internal_state c.hedge

/-- The surrounding run loop (spec §5): snapshots are fed one at a time in
order, threading the engine state; the fatal margin error halts the run.
Returns the per-call instruction lists, in call order. -/
def runCalls (p : UniV2HLParams) : EngineState → List CallInput → List (List ActionToTake)
  | _, [] => []
  | st, c :: cs =>
    match predictCall p st c with
    | .error _ => []
    | .ok (st', as) => as :: runCalls p st' cs

/-- Recognizer for the boot action sequence: four instructions, LP deposit,
LP open, HEDGE deposit, HEDGE open (source lines 66–71). -/
def isBootSeq : List ActionToTake → Bool
  | [a1, a2, a3, a4] =>
    a1.entity == .LP && a1.action.op == .deposit &&
    (a2.entity == .LP && a2.action.op == .open_position) &&
    (a3.entity == .HEDGE && a3.action.op == .deposit) &&
    (a4.entity == .HEDGE && a4.action.op == .open_position)
  | _ => false

/-! ## Observation builder (`src/univ2_hl_backtest.py`) -/

/-- One row of the pool-metrics source series; every cell may be null. -/
structure PoolRow where
  tvl : Option ℚ
  volume : Option ℚ
  fees : Option ℚ
  liquidity : Option ℚ
deriving DecidableEq

/-- A pool row after the liquidity column has been converted to `int`. -/
structure PoolRowInt where
  tvl : Option ℚ
  volume : Option ℚ
  fees : Option ℚ
  liquidity : Option ℤ
deriving DecidableEq

/-- Model of `astype(int)` on a float: C-style truncation toward zero.  For the
normalized rational `q` (with `q.den > 0`) this is the truncating integer
division of numerator by denominator. -/
def trunc_to_int (q : ℚ) : ℤ := q.num.tdiv q.den

/-- Source line 30: `pool["liquidity"] = (pool["liquidity"] * 10**18).astype(int)`. -/
def convert_liquidity (r : PoolRow) : PoolRowInt :=
  ⟨r.tvl, r.volume, r.fees, r.liquidity.map (fun l => trunc_to_int (l * 10 ^ 18))⟩

/-- Index lookup in a time-indexed series (association list keyed by
timestamp). -/
def lookupTS {α : Type} (xs : List (ℕ × α)) (t : ℕ) : Option α :=
  (xs.find? (fun pr => pr.1 == t)).map (fun pr => pr.2)

/-- One element of the list returned by `build_observations`
(source lines 36–50): the `Observation` with its LP and HEDGE global
states flattened.  `mark_price` is set from the same `row["price"]` as
`price`. -/
structure Snapshot where
  timestamp : ℕ
  price : ℚ
  tvl : ℚ
  volume : ℚ
  fees : ℚ
  liquidity : ℤ
  mark_price : ℚ
  funding_rate : ℚ
deriving DecidableEq

/-- Assemble the joined row at timestamp `t`, or `none` if `t` is absent
from some series or some joined cell is null (`dropna`). -/
def mkSnapshot (price fund : List (ℕ × Option ℚ)) (pool2 : List (ℕ × PoolRowInt))
    (t : ℕ) : Option Snapshot :=
  match lookupTS price t, lookupTS fund t, lookupTS pool2 t with
  | some (some pr), some (some ra), some row =>
    match row.tvl, row.volume, row.fees, row.liquidity with
    | some tv, some vo, some fe, some li => some ⟨t, pr, tv, vo, fe, li, pr, ra⟩
    | _, _, _, _ => none
  | _, _, _ => none

/-- The builder `build_observations` (source lines 16–51): convert pool liquidity to
int, inner-join the three series on timestamp, sort by timestamp
ascending, drop rows with nulls, and emit one `Snapshot` per surviving
row. -/
def build_observations (price fund : List (ℕ × Option ℚ)) (pool : List (ℕ × PoolRow)) :
    List Snapshot :=
  let pool2 := pool.map (fun pr => (pr.1, convert_liquidity pr.2))
  let keys := (price.map (fun pr => pr.1)).filter
    (fun t => (lookupTS fund t).isSome && (lookupTS pool2 t).isSome)
  let sortedKeys := List.insertionSort (· ≤ ·) keys
  sortedKeys.filterMap (mkSnapshot price fund pool2)

/-! ## Claim theorems -/

/-- C1: at every boot transition fired with price `q > 0` (and positive
leverage), the emitted LP deposit equals `INITIAL_NOTIONAL / (1 + 1/(2·HL_LEVERAGE))`,
the margin deposit equals `(deposit/2)/HL_LEVERAGE`, deposit + margin equals
`INITIAL_NOTIONAL` exactly, and the initial short size times the price equals
the volatile-asset value in the LP (`deposit/2`). -/
theorem C1_boot_capital (p : UniV2HLParams) (st : EngineState) (g : LPGlobalView)
    (i : LPInternalView) (hedge : HedgeView) (q : ℚ)
    (hb : st.did_boot = false) (hq : g.price = .val q) (hq0 : 0 < q)
    (hL : 0 < p.HL_LEVERAGE) :
    predict p st (some g) (some i) hedge = .ok (⟨true, some q⟩, bootActions p q) ∧
    initial_lp_deposit_notional p = p.INITIAL_NOTIONAL / (1 + 1 / (2 * p.HL_LEVERAGE)) ∧
    margin_for_initial_short p = initial_lp_deposit_notional p / 2 / p.HL_LEVERAGE ∧
    initial_lp_deposit_notional p + margin_for_initial_short p = p.INITIAL_NOTIONAL ∧
    initial_eth_amount_to_short p q * q = initial_lp_deposit_notional p / 2 := by
  have hL' : p.HL_LEVERAGE ≠ 0 := ne_of_gt hL
  have h2L : (0 : ℚ) < 2 * p.HL_LEVERAGE := by linarith
  have hden : (1 : ℚ) + 1 / (2 * p.HL_LEVERAGE) ≠ 0 := by
    have := one_div_pos.mpr h2L
    linarith
  refine ⟨?_, rfl, rfl, ?_, ?_⟩
  · simp [predict, hb, hq, hq0.not_le]
  · unfold margin_for_initial_short initial_eth_value_in_lp initial_lp_deposit_notional
    field_simp
    ring
  · unfold initial_eth_amount_to_short initial_eth_value_in_lp
    exact div_mul_cancel₀ _ (ne_of_gt hq0)

/-- Witness for C1 at `INITIAL_NOTIONAL = 1000000`, `HL_LEVERAGE = 1`,
boot price `2000`. -/
theorem C1_witness :
    predict ⟨1000000, 1, 1/10⟩ initEngineState (some ⟨.val 2000⟩) (some ⟨0⟩) ⟨0, 0⟩ =
      .ok (⟨true, some 2000⟩, bootActions ⟨1000000, 1, 1/10⟩ 2000) ∧
    initial_lp_deposit_notional ⟨1000000, 1, 1/10⟩ =
      (⟨1000000, 1, 1/10⟩ : UniV2HLParams).INITIAL_NOTIONAL /
        (1 + 1 / (2 * (⟨1000000, 1, 1/10⟩ : UniV2HLParams).HL_LEVERAGE)) ∧
    margin_for_initial_short ⟨1000000, 1, 1/10⟩ =
      initial_lp_deposit_notional ⟨1000000, 1, 1/10⟩ / 2 /
        (⟨1000000, 1, 1/10⟩ : UniV2HLParams).HL_LEVERAGE ∧
    initial_lp_deposit_notional ⟨1000000, 1, 1/10⟩ +
        margin_for_initial_short ⟨1000000, 1, 1/10⟩ =
      (⟨1000000, 1, 1/10⟩ : UniV2HLParams).INITIAL_NOTIONAL ∧
    initial_eth_amount_to_short ⟨1000000, 1, 1/10⟩ 2000 * 2000 =
      initial_lp_deposit_notional ⟨1000000, 1, 1/10⟩ / 2 :=
  C1_boot_capital ⟨1000000, 1, 1/10⟩ initEngineState ⟨.val 2000⟩ ⟨0⟩ ⟨0, 0⟩ 2000
    rfl rfl (by norm_num) (by norm_num)

/-- C2: when the boot transition fires (positive price, positive notional
and leverage), exactly four instructions are emitted, in the order LP deposit,
LP open_position, HEDGE deposit, HEDGE open_position, and the signed size of
the final instruction is negative (a short). -/
theorem C2_boot_order (p : UniV2HLParams) (st : EngineState) (g : LPGlobalView)
    (i : LPInternalView) (hedge : HedgeView) (q : ℚ)
    (hb : st.did_boot = false) (hq : g.price = .val q) (hq0 : 0 < q)
    (hL : 0 < p.HL_LEVERAGE) (hN : 0 < p.INITIAL_NOTIONAL) :
    predict p st (some g) (some i) hedge =
      .ok (⟨true, some q⟩,
        [⟨.LP, ⟨.deposit, initial_lp_deposit_notional p⟩⟩,
         ⟨.LP, ⟨.open_position, initial_lp_deposit_notional p⟩⟩,
         ⟨.HEDGE, ⟨.deposit, margin_for_initial_short p⟩⟩,
         ⟨.HEDGE, ⟨.open_position, -(initial_eth_amount_to_short p q)⟩⟩]) ∧
    -(initial_eth_amount_to_short p q) < 0 := by
  constructor
  · simp [predict, hb, hq, hq0.not_le, bootActions]
  · have h2L : (0 : ℚ) < 2 * p.HL_LEVERAGE := by linarith
    have hden : (0 : ℚ) < 1 + 1 / (2 * p.HL_LEVERAGE) := by
      have := one_div_pos.mpr h2L
      linarith
    have hdep : 0 < initial_lp_deposit_notional p := div_pos hN hden
    have hval : 0 < initial_eth_value_in_lp p := by
      unfold initial_eth_value_in_lp
      linarith
    have hshort : 0 < initial_eth_amount_to_short p q :=
      div_pos hval hq0
    exact neg_lt_zero.mpr hshort

/-- Witness for C2 at `INITIAL_NOTIONAL = 1000000`, `HL_LEVERAGE = 1`,
boot price `2000`. -/
theorem C2_witness :
    predict ⟨1000000, 1, 1/10⟩ initEngineState (some ⟨.val 2000⟩) (some ⟨0⟩) ⟨0, 0⟩ =
      .ok (⟨true, some 2000⟩,
        [⟨.LP, ⟨.deposit, initial_lp_deposit_notional ⟨1000000, 1, 1/10⟩⟩⟩,
         ⟨.LP, ⟨.open_position, initial_lp_deposit_notional ⟨1000000, 1, 1/10⟩⟩⟩,
         ⟨.HEDGE, ⟨.deposit, margin_for_initial_short ⟨1000000, 1, 1/10⟩⟩⟩,
         ⟨.HEDGE, ⟨.open_position, -(initial_eth_amount_to_short ⟨1000000, 1, 1/10⟩ 2000)⟩⟩]) ∧
    -(initial_eth_amount_to_short ⟨1000000, 1, 1/10⟩ 2000) < 0 :=
  C2_boot_order ⟨1000000, 1, 1/10⟩ initEngineState ⟨.val 2000⟩ ⟨0⟩ ⟨0, 0⟩ 2000
    rfl rfl (by norm_num) (by norm_num) (by norm_num)

/-- C4: whenever the current price is missing, non-positive, or NaN, the
call emits no instruction and leaves the engine state (boot flag and recorded
boot price) unchanged — both before and after boot. -/
theorem C4_invalid_price_skips (p : UniV2HLParams) (st : EngineState)
    (g : LPGlobalView) (i : LPInternalView) (hedge : HedgeView)
    (hp : g.price.invalid = true) :
    predict p st (some g) (some i) hedge = .ok (st, []) := by
  cases hb : st.did_boot with
  | false =>
    cases hgp : g.price with
    | missing => simp [predict, hb, hgp]
    | nan => simp [predict, hb, hgp]
    | val q =>
      rw [hgp] at hp
      have hq0 : q ≤ 0 := of_decide_eq_true hp
      simp [predict, hb, hgp, hq0]
  | true =>
    cases hgp : g.price with
    | missing => simp [predict, hb, rebalanceStep, hgp, Except.map]
    | nan => simp [predict, hb, rebalanceStep, hgp, Except.map]
    | val q =>
      rw [hgp] at hp
      have hq0 : q ≤ 0 := of_decide_eq_true hp
      simp [predict, hb, rebalanceStep, hgp, hq0, Except.map]

/-- Witness for C4: a NaN price after boot. -/
theorem C4_witness :
    predict ⟨1000000, 1, 1/10⟩ ⟨true, some 2000⟩ (some ⟨.nan⟩) (some ⟨200⟩) ⟨100, -150⟩ =
      .ok (⟨true, some 2000⟩, []) :=
  C4_invalid_price_skips ⟨1000000, 1, 1/10⟩ ⟨true, some 2000⟩ ⟨.nan⟩ ⟨200⟩ ⟨100, -150⟩ rfl

/-- C7: the rebalance trigger is monotone in the threshold parameter —
if it fires at threshold `REBALANCE_THRESHOLD_PCT p`, it also fires at every
smaller (or equal) threshold, so a run with a smaller threshold triggers at
least as often on the same data. -/
theorem C7_threshold_mono (p p' : UniV2HLParams)
    (lp_eth_amount current_short_size_abs : ℚ)
    (hle : p'.REBALANCE_THRESHOLD_PCT ≤ p.REBALANCE_THRESHOLD_PCT)
    (ht : rebalance_triggered p.REBALANCE_THRESHOLD_PCT lp_eth_amount
        current_short_size_abs = true) :
    rebalance_triggered p'.REBALANCE_THRESHOLD_PCT lp_eth_amount
      current_short_size_abs = true := by
  unfold rebalance_triggered at ht ⊢
  exact decide_eq_true (lt_of_le_of_lt hle (of_decide_eq_true ht))

/-- Witness for C7: a divergence ratio of 1/4 fires at threshold 1/10 and
hence also at threshold 1/20. -/
theorem C7_witness :
    rebalance_triggered (⟨1000000, 1, 1/20⟩ : UniV2HLParams).REBALANCE_THRESHOLD_PCT
      200 150 = true :=
  C7_threshold_mono ⟨1000000, 1, 1/10⟩ ⟨1000000, 1, 1/20⟩ 200 150
    (by norm_num)
    (by unfold rebalance_triggered; rw [decide_eq_true_eq, pyabs_eq_abs]; norm_num)

/-- C8: after boot, a zero hedge balance with a positive LP token1 amount
(the liquidation sentinel condition) neither raises nor suppresses anything:
the call returns exactly what the rebalance logic produces for these states. -/
theorem C8_sentinel_is_soft (p : UniV2HLParams) (st : EngineState)
    (g : LPGlobalView) (i : LPInternalView) (hedge : HedgeView)
    (hb : st.did_boot = true) (h0 : hedge.balance = 0) (hpos : 0 < i.token1_amount) :
    predict p st (some g) (some i) hedge =
      (rebalanceStep p g i hedge).map (fun as => (st, as)) := by
  simp [predict, hb]

/-- Witness for C8 (spec scenario D): hedge balance 0, LP token1 = 50; the
call equals the bare rebalance evaluation at the same states. -/
theorem C8_witness :
    predict ⟨1000000, 1, 1/10⟩ ⟨true, some 2000⟩ (some ⟨.val 2000⟩) (some ⟨50⟩) ⟨0, 0⟩ =
      (rebalanceStep ⟨1000000, 1, 1/10⟩ ⟨.val 2000⟩ ⟨50⟩ ⟨0, 0⟩).map
        (fun as => ((⟨true, some 2000⟩ : EngineState), as)) :=
  C8_sentinel_is_soft ⟨1000000, 1, 1/10⟩ ⟨true, some 2000⟩ ⟨.val 2000⟩ ⟨50⟩ ⟨0, 0⟩
    rfl rfl (by norm_num)

/-- C6: after boot, when the LP volatile amount exceeds the `1e-9` floor
and the divergence ratio does not exceed the threshold, the call emits
nothing and leaves the engine state unchanged — so an identical repeated call
again emits nothing (idempotence). -/
theorem C6_within_threshold_noop (p : UniV2HLParams) (st : EngineState)
    (g : LPGlobalView) (i : LPInternalView) (hedge : HedgeView)
    (hb : st.did_boot = true)
    (hlp : 1 / 1000000000 < i.token1_amount)
    (hth : abs (i.token1_amount - abs hedge.size) / i.token1_amount ≤
      p.REBALANCE_THRESHOLD_PCT) :
    predict p st (some g) (some i) hedge = .ok (st, []) := by
  have hntrig : rebalance_triggered p.REBALANCE_THRESHOLD_PCT i.token1_amount
      (pyabs hedge.size) = false := by
    unfold rebalance_triggered
    simp only [pyabs_eq_abs]
    exact decide_eq_false (not_lt.mpr hth)
  cases hgp : g.price with
  | missing => simp [predict, hb, rebalanceStep, hgp, Except.map]
  | nan => simp [predict, hb, rebalanceStep, hgp, Except.map]
  | val q =>
    rcases le_or_lt q 0 with hq | hq
    · simp [predict, hb, rebalanceStep, hgp, hq, Except.map]
    · simp [predict, hb, rebalanceStep, hgp, hq.not_le, hlp.not_le, hntrig, Except.map]

/-- Witness for C6 (spec scenario C): LP amount 200, short −195, threshold
1/10 — divergence ratio 1/40 is within the band, so nothing is emitted. -/
theorem C6_witness :
    predict ⟨1000000, 1, 1/10⟩ ⟨true, some 2000⟩ (some ⟨.val 2000⟩) (some ⟨200⟩)
      ⟨100000, -195⟩ = .ok (⟨true, some 2000⟩, []) :=
  C6_within_threshold_noop ⟨1000000, 1, 1/10⟩ ⟨true, some 2000⟩ ⟨.val 2000⟩ ⟨200⟩
    ⟨100000, -195⟩ rfl (by norm_num)
    (by rw [show |(-195 : ℚ)| = 195 by rw [abs_of_neg] <;> norm_num]; rw [abs_of_nonneg] <;> norm_num)

/-- Every result of the post-boot rebalance logic is: no instruction, one
HEDGE `open_position` instruction, or the fatal margin error. -/
theorem rebalanceStep_shape (p : UniV2HLParams) (g : LPGlobalView)
    (i : LPInternalView) (hedge : HedgeView) :
    rebalanceStep p g i hedge = .ok [] ∨
    (∃ amt, rebalanceStep p g i hedge = .ok [⟨.HEDGE, ⟨.open_position, amt⟩⟩]) ∨
    (∃ e, rebalanceStep p g i hedge = .error e) := by
  unfold rebalanceStep
  cases g.price with
  | missing => exact Or.inl rfl
  | nan => exact Or.inl rfl
  | val q =>
    dsimp only
    split_ifs <;>
      first
        | exact Or.inl rfl
        | exact Or.inr (Or.inl ⟨_, rfl⟩)
        | exact Or.inr (Or.inr ⟨_, rfl⟩)

/-- C10: after boot, every successful call returns the engine state
unchanged and at most one instruction, which can only be a HEDGE
`open_position`; no post-boot instruction ever touches the LP position. -/
theorem C10_postboot_actions (p : UniV2HLParams) (st : EngineState)
    (lg : Option LPGlobalView) (li : Option LPInternalView) (hedge : HedgeView)
    (hb : st.did_boot = true) (st' : EngineState) (as : List ActionToTake)
    (hok : predict p st lg li hedge = .ok (st', as)) :
    st' = st ∧ (as = [] ∨ ∃ amt, as = [⟨.HEDGE, ⟨.open_position, amt⟩⟩]) := by
  cases lg with
  | none =>
    simp only [predict, Except.ok.injEq, Prod.mk.injEq] at hok
    exact ⟨hok.1.symm, Or.inl hok.2.symm⟩
  | some g =>
    cases li with
    | none =>
      simp only [predict, Except.ok.injEq, Prod.mk.injEq] at hok
      exact ⟨hok.1.symm, Or.inl hok.2.symm⟩
    | some i =>
      have hpred : predict p st (some g) (some i) hedge =
          (rebalanceStep p g i hedge).map (fun as => (st, as)) := by
        simp [predict, hb]
      rw [hpred] at hok
      rcases rebalanceStep_shape p g i hedge with h | ⟨amt, h⟩ | ⟨e, h⟩
      · rw [h] at hok
        simp only [Except.map, Except.ok.injEq, Prod.mk.injEq] at hok
        exact ⟨hok.1.symm, Or.inl hok.2.symm⟩
      · rw [h] at hok
        simp only [Except.map, Except.ok.injEq, Prod.mk.injEq] at hok
        exact ⟨hok.1.symm, Or.inr ⟨amt, hok.2.symm⟩⟩
      · rw [h] at hok
        simp only [Except.map] at hok
        exact absurd hok (by simp)

/-- Witness for C10 at a post-boot call that emits nothing. -/
theorem C10_witness :
    (⟨true, some 2000⟩ : EngineState) = ⟨true, some 2000⟩ ∧
    (([] : List ActionToTake) = [] ∨
      ∃ amt : ℚ, ([] : List ActionToTake) = [⟨.HEDGE, ⟨.open_position, amt⟩⟩]) :=
  C10_postboot_actions ⟨1000000, 1, 1/10⟩ ⟨true, some 2000⟩ (some ⟨.missing⟩)
    (some ⟨200⟩) ⟨100000, -195⟩ rfl ⟨true, some 2000⟩ []
    (by simp [predict, rebalanceStep, Except.map])

/-- C5 (amended): after boot, when a rebalance is triggered and the
adjustment's notional value `|adjustment| · price` is at least the 0.01 dust
minimum: if the adjustment increases the short (negative) and the required
margin `|adjustment| · price / HL_LEVERAGE` exceeds the available balance,
the call raises the margin error carrying both figures and emits nothing;
if margin suffices, or the adjustment decreases the short (positive), exactly
one `open_position` instruction with the signed adjustment is emitted. -/
theorem C5_margin_check (p : UniV2HLParams) (st : EngineState) (g : LPGlobalView)
    (i : LPInternalView) (hedge : HedgeView) (q : ℚ)
    (hb : st.did_boot = true) (hq : g.price = .val q) (hq0 : 0 < q)
    (hlp : 1 / 1000000000 < i.token1_amount)
    (htrig : rebalance_triggered p.REBALANCE_THRESHOLD_PCT i.token1_amount
      (abs hedge.size) = true)
    (hdust : 1 / 100 ≤ abs ((-i.token1_amount - hedge.size) * q)) :
    (-i.token1_amount - hedge.size < 0 →
      hedge.balance < abs (-i.token1_amount - hedge.size) * q / p.HL_LEVERAGE →
      predict p st (some g) (some i) hedge =
        .error ⟨abs (-i.token1_amount - hedge.size) * q / p.HL_LEVERAGE, hedge.balance⟩) ∧
    (-i.token1_amount - hedge.size < 0 →
      ¬ hedge.balance < abs (-i.token1_amount - hedge.size) * q / p.HL_LEVERAGE →
      predict p st (some g) (some i) hedge =
        .ok (st, [⟨.HEDGE, ⟨.open_position, -i.token1_amount - hedge.size⟩⟩])) ∧
    (0 < -i.token1_amount - hedge.size →
      predict p st (some g) (some i) hedge =
        .ok (st, [⟨.HEDGE, ⟨.open_position, -i.token1_amount - hedge.size⟩⟩])) := by
  have hdust' : ¬ abs ((-i.token1_amount - hedge.size) * q) < 1 / 100 :=
    not_lt.mpr hdust
  have hfloor : ¬ i.token1_amount ≤ (1000000000 : ℚ)⁻¹ := by
    rw [← one_div]
    exact hlp.not_le
  have hdustinv : ¬ |(-i.token1_amount - hedge.size) * q| < (100 : ℚ)⁻¹ := by
    rw [← one_div]
    exact hdust'
  refine ⟨?_, ?_, ?_⟩
  · intro hneg hinsuf
    simp [predict, hb, rebalanceStep, hq, hq0.not_le, hlp.not_le, pyabs_eq_abs,
      htrig, hdust', hneg, hinsuf, Except.map]
    rw [if_neg hfloor, if_neg hdustinv]
  · intro hneg hsuf
    simp [predict, hb, rebalanceStep, hq, hq0.not_le, hlp.not_le, pyabs_eq_abs,
      htrig, hdust', hneg, hsuf, Except.map]
    rw [if_neg hfloor, if_neg hdustinv]
  · intro hpos
    simp [predict, hb, rebalanceStep, hq, hq0.not_le, hlp.not_le, pyabs_eq_abs,
      htrig, hdust', hpos.not_lt, hpos, Except.map]
    rw [if_neg hfloor, if_neg hdustinv]

/-- Counterexample to C5 as written: post-boot at price `1/1000`, LP amount 1,
short size 0, threshold `1/10`.  The rebalance trigger fires, the adjustment
−1 increases the short, and the required margin `1/1000` exceeds the available
balance 0 — yet the engine neither raises nor emits anything, because the dust
filter at source line 108 (`|adjustment · price| < 0.01`) returns first. -/
theorem C5_counterexample :
    (⟨true, some 1⟩ : EngineState).did_boot = true ∧
    rebalance_triggered (⟨1000000, 1, 1/10⟩ : UniV2HLParams).REBALANCE_THRESHOLD_PCT
      (1 : ℚ) (abs (0 : ℚ)) = true ∧
    (-1 - 0 : ℚ) < 0 ∧
    (0 : ℚ) < abs (-1 - 0 : ℚ) * (1/1000) /
      (⟨1000000, 1, 1/10⟩ : UniV2HLParams).HL_LEVERAGE ∧
    predict ⟨1000000, 1, 1/10⟩ ⟨true, some 1⟩ (some ⟨.val (1/1000)⟩) (some ⟨1⟩) ⟨0, 0⟩ =
      .ok (⟨true, some 1⟩, []) := by
  refine ⟨rfl, ?_, by norm_num, ?_, ?_⟩
  · unfold rebalance_triggered
    rw [decide_eq_true_eq]
    simp only [pyabs_eq_abs, abs_zero, sub_zero, abs_one]
    norm_num
  · rw [show (-1 - 0 : ℚ) = -1 by ring, abs_neg, abs_one]
    norm_num
  · norm_num [predict, rebalanceStep, rebalance_triggered, pyabs, Except.map,
      decide_eq_true_eq]

/-- Witness for the amended C5, hitting the fatal branch: price 1, LP amount
1, short size 0, balance 0 — required margin 1 exceeds balance 0, so the
margin error with both figures is raised. -/
theorem C5_witness :
    predict ⟨100, 1, 1/10⟩ ⟨true, some 1⟩ (some ⟨.val 1⟩) (some ⟨1⟩) ⟨0, 0⟩ =
      .error ⟨abs (-(1 : ℚ) - 0) * 1 / 1, 0⟩ :=
  (C5_margin_check ⟨100, 1, 1/10⟩ ⟨true, some 1⟩ ⟨.val 1⟩ ⟨1⟩ ⟨0, 0⟩ 1 rfl rfl
    (by norm_num) (by norm_num)
    (by
      unfold rebalance_triggered
      rw [decide_eq_true_eq]
      simp only [pyabs_eq_abs, abs_zero, sub_zero, abs_one]
      norm_num)
    (by
      rw [show ((-(1 : ℚ) - 0) * 1 : ℚ) = -1 by ring, abs_neg, abs_one]
      norm_num)).1
    (by norm_num)
    (by
      rw [show (-(1 : ℚ) - 0 : ℚ) = -1 by ring, abs_neg, abs_one]
      norm_num)

/-- Before boot, a call either leaves everything unchanged and emits nothing,
or fires the boot transition, emitting exactly the boot sequence. -/
theorem predict_preboot_cases (p : UniV2HLParams) (st : EngineState)
    (lg : Option LPGlobalView) (li : Option LPInternalView) (hedge : HedgeView)
    (hb : st.did_boot = false) :
    predict p st lg li hedge = .ok (st, []) ∨
    ∃ q, predict p st lg li hedge = .ok (⟨true, some q⟩, bootActions p q) := by
  cases lg with
  | none => exact Or.inl rfl
  | some g =>
    cases li with
    | none => exact Or.inl rfl
    | some i =>
      cases hgp : g.price with
      | missing => exact Or.inl (by simp [predict, hb, hgp])
      | nan => exact Or.inl (by simp [predict, hb, hgp])
      | val q =>
        rcases le_or_lt q 0 with hq | hq
        · exact Or.inl (by simp [predict, hb, hgp, hq])
        · exact Or.inr ⟨q, by simp [predict, hb, hgp, hq.not_le]⟩

/-- After boot, a call either raises the margin error or returns the state
unchanged with an output that is never the boot sequence. -/
theorem predict_postboot_cases (p : UniV2HLParams) (st : EngineState)
    (lg : Option LPGlobalView) (li : Option LPInternalView) (hedge : HedgeView)
    (hb : st.did_boot = true) :
    (∃ e, predict p st lg li hedge = .error e) ∨
    ∃ as, predict p st lg li hedge = .ok (st, as) ∧ isBootSeq as = false := by
  cases lg with
  | none => exact Or.inr ⟨[], rfl, rfl⟩
  | some g =>
    cases li with
    | none => exact Or.inr ⟨[], rfl, rfl⟩
    | some i =>
      have hpred : predict p st (some g) (some i) hedge =
          (rebalanceStep p g i hedge).map (fun as => (st, as)) := by
        simp [predict, hb]
      rcases rebalanceStep_shape p g i hedge with h | ⟨amt, h⟩ | ⟨e, h⟩
      · exact Or.inr ⟨[], by rw [hpred, h]; rfl, rfl⟩
      · exact Or.inr ⟨[⟨.HEDGE, ⟨.open_position, amt⟩⟩], by rw [hpred, h]; rfl, rfl⟩
      · exact Or.inl ⟨e, by rw [hpred, h]; rfl⟩

/-- The boot action list is recognized by `isBootSeq`. -/
theorem isBootSeq_bootActions (p : UniV2HLParams) (q : ℚ) :
    isBootSeq (bootActions p q) = true := rfl

/-- Once booted, no later call in a run ever outputs the boot sequence. -/
theorem runCalls_postboot_no_boot (p : UniV2HLParams) (cs : List CallInput)
    (st : EngineState) (hb : st.did_boot = true) :
    ∀ out ∈ runCalls p st cs, isBootSeq out = false := by
  induction cs generalizing st with
  | nil => intro out hout; simp [runCalls] at hout
  | cons c cs ih =>
    intro out hout
    rcases predict_postboot_cases p st c.lp_global_state c.lp_internal_state c.hedge hb with
      ⟨e, he⟩ | ⟨as, hok, hshape⟩
    · simp only [runCalls, predictCall, he] at hout
      simp at hout
    · simp only [runCalls, predictCall, hok] at hout
      rcases List.mem_cons.mp hout with rfl | hmem
      · exact hshape
      · exact ih st hb out hmem

/-- Once booted, the count of boot-sequence outputs over the rest of a run
is zero. -/
theorem runCalls_postboot_countP (p : UniV2HLParams) (cs : List CallInput)
    (st : EngineState) (hb : st.did_boot = true) :
    (runCalls p st cs).countP isBootSeq = 0 :=
  List.countP_eq_zero.mpr
    (fun a ha => by simp [runCalls_postboot_no_boot p cs st hb a ha])

/-- Main run invariant from an un-booted state: the boot sequence appears at
most once among the outputs, and as long as no output so far was the boot
sequence every output is empty. -/
theorem runCalls_preboot_main (p : UniV2HLParams) (cs : List CallInput)
    (st : EngineState) (hb : st.did_boot = false) :
    (runCalls p st cs).countP isBootSeq ≤ 1 ∧
    ∀ n, (∀ j, j ≤ n → isBootSeq ((runCalls p st cs).getD j []) = false) →
      (runCalls p st cs).getD n [] = [] := by
  induction cs generalizing st with
  | nil =>
    refine ⟨by simp [runCalls], fun n _ => ?_⟩
    simp [runCalls]
  | cons c cs ih =>
    rcases predict_preboot_cases p st c.lp_global_state c.lp_internal_state c.hedge hb with
      hok | ⟨q, hok⟩
    · have hrun : runCalls p st (c :: cs) = [] :: runCalls p st cs := by
        simp only [runCalls, predictCall]
        rw [hok]
      obtain ⟨ih1, ih2⟩ := ih st hb
      refine ⟨?_, ?_⟩
      · rw [hrun, List.countP_cons]
        simpa [isBootSeq] using ih1
      · intro n hcond
        rw [hrun] at hcond ⊢
        cases n with
        | zero => simp
        | succ m =>
          simp only [List.getD_cons_succ]
          refine ih2 m (fun j hj => ?_)
          have h := hcond (j + 1) (Nat.succ_le_succ hj)
          simpa using h
    · have hrun : runCalls p st (c :: cs) =
          bootActions p q :: runCalls p ⟨true, some q⟩ cs := by
        simp only [runCalls, predictCall]
        rw [hok]
      refine ⟨?_, ?_⟩
      · rw [hrun, List.countP_cons,
          runCalls_postboot_countP p cs ⟨true, some q⟩ rfl,
          isBootSeq_bootActions]
        simp
      · intro n hcond
        have h0 := hcond 0 (Nat.zero_le n)
        rw [hrun, List.getD_cons_zero, isBootSeq_bootActions] at h0
        exact absurd h0 (by simp)

/-- C3: over any sequence of `predict` calls in a run started from the
initial engine state, the boot action sequence appears at most once among
the outputs, and every call made before the boot has fired emits no
instruction at all. -/
theorem C3_boot_once (p : UniV2HLParams) (cs : List CallInput) :
    (runCalls p initEngineState cs).countP isBootSeq ≤ 1 ∧
    ∀ n, (∀ j, j ≤ n →
        isBootSeq ((runCalls p initEngineState cs).getD j []) = false) →
      (runCalls p initEngineState cs).getD n [] = [] :=
  runCalls_preboot_main p cs initEngineState rfl

/-- Witness for C3 on a concrete two-call run. -/
theorem C3_witness :
    (runCalls ⟨1000000, 1, 1/10⟩ initEngineState
      [⟨some ⟨.missing⟩, some ⟨0⟩, ⟨0, 0⟩⟩, ⟨some ⟨.val 2000⟩, some ⟨0⟩, ⟨0, 0⟩⟩]).countP
        isBootSeq ≤ 1 :=
  (C3_boot_once ⟨1000000, 1, 1/10⟩
    [⟨some ⟨.missing⟩, some ⟨0⟩, ⟨0, 0⟩⟩, ⟨some ⟨.val 2000⟩, some ⟨0⟩, ⟨0, 0⟩⟩]).1

/-- Inversion for `mkSnapshot`: a produced snapshot carries its key as
timestamp, and every joined column comes, non-null, from the corresponding
source series. -/
theorem mkSnapshot_spec (price fund : List (ℕ × Option ℚ))
    (pool2 : List (ℕ × PoolRowInt)) (t : ℕ) (s : Snapshot)
    (h : mkSnapshot price fund pool2 t = some s) :
    s.timestamp = t ∧
    lookupTS price t = some (some s.price) ∧
    lookupTS fund t = some (some s.funding_rate) ∧
    s.mark_price = s.price ∧
    ∃ row, lookupTS pool2 t = some row ∧
      row.tvl = some s.tvl ∧ row.volume = some s.volume ∧ row.fees = some s.fees ∧
      row.liquidity = some s.liquidity := by
  unfold mkSnapshot at h
  split at h
  · rename_i pr ra row heq1 heq2 heq3
    split at h
    · rename_i tv vo fe li heq4 heq5 heq6 heq7
      obtain rfl := Option.some.inj h
      exact ⟨rfl, heq1, heq2, rfl, row, heq3, heq4, heq5, heq6, heq7⟩
    · exact absurd h (by simp)
  · exact absurd h (by simp)

/-- Index lookup commutes with mapping a function over the values of a
time-indexed series. -/
theorem lookupTS_map {α β : Type} (f : α → β) (xs : List (ℕ × α)) (t : ℕ) :
    lookupTS (xs.map (fun pr => (pr.1, f pr.2))) t = (lookupTS xs t).map f := by
  induction xs with
  | nil => rfl
  | cons x xs ih =>
    unfold lookupTS at ih ⊢
    simp only [List.map_cons, List.find?_cons]
    cases hxt : (x.1 == t) with
    | false => simpa [hxt] using ih
    | true => simp [hxt]

/-- C9: every snapshot sequence produced by the observation builder is
sorted by ascending timestamp; each snapshot's timestamp is present with a
non-null value in all three source series; no joined column is null; and the
emitted pool liquidity is the source liquidity times `10^18` truncated to an
integer. -/
theorem C9_observation_builder (price fund : List (ℕ × Option ℚ))
    (pool : List (ℕ × PoolRow)) :
    List.Sorted (· ≤ ·) ((build_observations price fund pool).map Snapshot.timestamp) ∧
    ∀ s ∈ build_observations price fund pool,
      lookupTS price s.timestamp = some (some s.price) ∧
      lookupTS fund s.timestamp = some (some s.funding_rate) ∧
      s.mark_price = s.price ∧
      ∃ row li, lookupTS pool s.timestamp = some row ∧
        row.tvl = some s.tvl ∧ row.volume = some s.volume ∧ row.fees = some s.fees ∧
        row.liquidity = some li ∧ s.liquidity = trunc_to_int (li * 10 ^ 18) := by
  constructor
  · simp only [build_observations]
    refine List.pairwise_map.mpr ?_
    refine List.Pairwise.filterMap _ ?_ (List.sorted_insertionSort _ _)
    intro a a' haa' b hb b' hb'
    rw [(mkSnapshot_spec _ _ _ _ _ (Option.mem_def.mp hb)).1,
      (mkSnapshot_spec _ _ _ _ _ (Option.mem_def.mp hb')).1]
    exact haa'
  · intro s hs
    simp only [build_observations, List.mem_filterMap] at hs
    obtain ⟨t, _, hmk⟩ := hs
    obtain ⟨hts, hpr, hfund, hmark, row, hpool2, htv, hvo, hfe, hli⟩ :=
      mkSnapshot_spec _ _ _ _ _ hmk
    rw [lookupTS_map] at hpool2
    obtain ⟨row0, hrow0, hconv⟩ := Option.map_eq_some'.mp hpool2
    subst hconv
    have hli' : row0.liquidity.map (fun l => trunc_to_int (l * 10 ^ 18)) =
        some s.liquidity := hli
    obtain ⟨li, hli0, hlieq⟩ := Option.map_eq_some'.mp hli'
    rw [hts]
    exact ⟨hpr, hfund, hmark, row0, li, hrow0, htv, hvo, hfe, hli0, hlieq.symm⟩

/-- Witness for C9 on concrete three-series data with an out-of-order key,
a missing key, and a null cell. -/
theorem C9_witness :
    List.Sorted (· ≤ ·)
      ((build_observations [(2, some 5), (1, some 3)] [(1, some (1/100)), (2, none)]
        [(1, ⟨some 1, some 2, some 3, some (7/2)⟩),
         (2, ⟨some 1, some 2, some 3, some 4⟩)]).map Snapshot.timestamp) :=
  (C9_observation_builder [(2, some 5), (1, some 3)] [(1, some (1/100)), (2, none)]
    [(1, ⟨some 1, some 2, some 3, some (7/2)⟩),
     (2, ⟨some 1, some 2, some 3, some 4⟩)]).1

end UniV2HL
